import Mathlib

/-!
Verification development for the html-validate-nice-checkers repository:
a shallow embedding of the external-resource verification subsystem
(the blocking HTTP prober `syncFetch`, the external-links rule, the
latest-packages rule, the internal-links rule and the alternate-language
reciprocity checker), together with theorems settling the specified
properties.

String scanning from the source (regular-expression matches, splits,
replaces) is embedded as structural recursions over `List Char` so that
every definition evaluates inside the kernel.  Effects are made explicit:
the result of `execSync` (the curl subprocess) is an input of type
`Except String String` (an exception message, or the captured stdout),
the SQLite store is a lookup function plus an explicit list of written
rows, and the report sink is the returned list of reports.
-/

set_option maxRecDepth 4000
set_option linter.unusedVariables false

namespace NiceCheckers

/-! ## Character-list string utilities -/

/-- Split a character list on a single separator character
(model of `String.prototype.split` with a one-character separator,
and of scanning a multi-line regex line by line). -/
def chSplitOnChar (sep : Char) : List Char → List (List Char)
  | [] => [[]]
  | c :: rest =>
    match chSplitOnChar sep rest with
    | [] => [[c]]
    | h :: t => if c = sep then [] :: h :: t else (c :: h) :: t

/-- JavaScript `String.prototype.trim` on a character list
(strips ASCII whitespace from both ends). -/
def isJsWhitespace (c : Char) : Bool :=
  c = ' ' ∨ c = '\t' ∨ c = '\n' ∨ c = '\r' ∨ c = '\x0b' ∨ c = '\x0c'

def chTrim (cs : List Char) : List Char :=
  ((cs.dropWhile isJsWhitespace).reverse.dropWhile isJsWhitespace).reverse

/-- Fuel-indexed global replace: replaces every non-overlapping leftmost
occurrence of `pat`, continuing after the replacement, exactly as the
JavaScript global-regex `String.prototype.replace` does on a literal
pattern.  The fuel is the length of the scanned list, which suffices
because every step consumes at least one character. -/
def chReplaceAux (pat rep : List Char) : Nat → List Char → List Char
  | _, [] => []
  | 0, cs => cs
  | Nat.succ n, c :: rest =>
    if pat ≠ [] ∧ pat.isPrefixOf (c :: rest) then
      rep ++ chReplaceAux pat rep n ((c :: rest).drop pat.length)
    else
      c :: chReplaceAux pat rep n rest

def chReplace (pat rep cs : List Char) : List Char :=
  chReplaceAux pat rep cs.length cs

/-- Substring containment, as JavaScript `String.prototype.includes`. -/
def chContainsSub (pat : List Char) : List Char → Bool
  | [] => pat = []
  | c :: rest => pat.isPrefixOf (c :: rest) || chContainsSub pat rest

def intercalateCh (sep : List Char) : List (List Char) → List Char
  | [] => []
  | [x] => x
  | x :: y :: t => x ++ sep ++ intercalateCh sep (y :: t)

/-- String wrappers over the character-list utilities. -/
def strStartsWith (pre s : String) : Bool := pre.data.isPrefixOf s.data

def strEndsWith (sfx s : String) : Bool := sfx.data.isSuffixOf s.data

def strTrim (s : String) : String := ⟨chTrim s.data⟩

def strIntercalate (sep : String) (l : List String) : String :=
  ⟨intercalateCh sep.data (l.map String.data)⟩

def lowerStr (s : String) : String := ⟨s.data.map Char.toLower⟩

def jsIncludes (s pat : String) : Bool := chContainsSub pat.data s.data

/-- JavaScript truthiness of a nullable string: `null`/`undefined` and the
empty string are falsy. -/
def jsTruthy : Option String → Bool
  | none => false
  | some s => s ≠ ""

/-! ## Response parsing shared by `syncFetch` and `ExternalLinksRule`

Both `src/utils/syncFetch.ts` and `ExternalLinksRule.performCheck` parse
the dumped curl headers with the same two regexes:
`/^HTTP\/[0-9.]+ (\d{3})/m` and `/^Location: (.+)/im`. -/

def digitVal (c : Char) : Nat := c.toNat - 48

/-- Match of `^HTTP\/[0-9.]+ (\d{3})` against one line: the literal
`HTTP/`, a nonempty run of digits and dots, a space, then three digits
(the capture, converted with `parseInt`). -/
def parseStatusLineCh (line : List Char) : Option Nat :=
  if "HTTP/".data.isPrefixOf line then
    let rest := line.drop 5
    let vers := rest.takeWhile (fun c => c.isDigit ∨ c = '.')
    if vers = [] then none
    else
      match rest.drop vers.length with
      | ' ' :: d1 :: d2 :: d3 :: _ =>
        if d1.isDigit ∧ d2.isDigit ∧ d3.isDigit then
          some (digitVal d1 * 100 + digitVal d2 * 10 + digitVal d3)
        else none
      | _ => none
  else none

/-- Match of `^Location: (.+)` with the case-insensitive flag against one
line.  The JavaScript dot matches neither `\n` (already split away) nor
`\r`, and the capture must be nonempty. -/
def parseLocationLineCh (line : List Char) : Option (List Char) :=
  if (line.take 10).map Char.toLower = "location: ".data then
    let cap := (line.drop 10).takeWhile (fun c => c ≠ '\r')
    if cap = [] then none else some cap
  else none

/-- First line of the output matching the HTTP status-line regex
(the `/m` flag scans line starts left to right). -/
def parseStatus (output : String) : Option Nat :=
  (chSplitOnChar '\n' output.data).findSome? parseStatusLineCh

def parseLocation (output : String) : Option String :=
  ((chSplitOnChar '\n' output.data).findSome? parseLocationLineCh).map (⟨·⟩)

/-- Split on the blank-line regex `/\r?\n\r?\n/` with JavaScript
leftmost-greedy match semantics (`String.prototype.split`). -/
def splitBlankCh : List Char → List (List Char)
  | [] => [[]]
  | '\r' :: '\n' :: '\r' :: '\n' :: rest => [] :: splitBlankCh rest
  | '\r' :: '\n' :: '\n' :: rest => [] :: splitBlankCh rest
  | '\n' :: '\r' :: '\n' :: rest => [] :: splitBlankCh rest
  | '\n' :: '\n' :: rest => [] :: splitBlankCh rest
  | c :: rest =>
    match splitBlankCh rest with
    | [] => [[c]]
    | h :: t => (c :: h) :: t

def splitHeaderBody (output : String) : List String :=
  (splitBlankCh output.data).map (⟨·⟩)

/-! ## `syncFetch` (src/utils/syncFetch.ts)

The curl subprocess is embedded as an input `exec : Except String String`:
`Except.error msg` is an exception thrown by `execSync` (caught by the
`try`/`catch`), `Except.ok output` is the captured stdout.  Because the
shell command ends in `|| true`, a transport failure (timeout, DNS
failure, connection refused) normally surfaces as `Except.ok` with output
containing no HTTP status line, not as `Except.error`. -/

structure SyncFetchOptions where
  timeoutSeconds : Nat := 5
  userAgent : String := "Mozilla/5.0 (compatible; html-validate-nice-checkers)"
  headOnly : Bool := false
  maxRedirs : Nat := 0
  failOnError : Bool := false
  headers : List (String × String) := []
deriving DecidableEq

structure SyncFetchResult where
  success : Bool
  statusCode : Option Nat := none
  body : Option String := none
  headers : Option String := none
  redirectTo : Option String := none
  error : Option String := none
deriving DecidableEq

def syncFetch (exec : Except String String) (options : SyncFetchOptions) :
    SyncFetchResult :=
  match exec with
  | Except.error msg => { success := false, error := some msg }
  | Except.ok output =>
    let statusCode := parseStatus output
    let fields := splitHeaderBody output
    { success :=
        match statusCode with
        | some c => decide (200 ≤ c ∧ c < 400)
        | none => false
      statusCode := statusCode
      headers := some (fields.headD "")
      body := if options.headOnly then none else some (strIntercalate "\n\n" fields.tail)
      redirectTo := (parseLocation output).map strTrim
      error := none }

def syncHead (exec : Except String String) (options : SyncFetchOptions) :
    SyncFetchResult :=
  syncFetch exec { options with headOnly := true }

/-! ## URL normalizer (ExternalLinksRule.ts, `normalizeUrl`)

The source calls the WHATWG `new URL(url)` constructor, lowercases
`hostname`, and reserializes.  The constructor is modelled for
authority URLs of the port-bearing special schemes (http, https, ftp,
ws, wss) with ASCII, non-numeric hosts and components in canonical
percent-encoded form.  Within that domain the model reproduces the
constructor's rewriting: the scheme is lowercased, an empty path
becomes `/`, dot segments (`.`/`..` and their percent-encoded
spellings) are RESOLVED in the path, the port is parsed numerically
(rejecting values above 65535) and dropped when it equals the scheme's
default, and the query and fragment are kept verbatim.  The WHATWG
parser also lowercases the host (making the source's explicit
`toLowerCase` a no-op); the model keeps the host as written and lets
`normalizeUrl`'s explicit lowercasing produce the same final string.
Strings outside the domain — non-special schemes, userinfo, embedded
whitespace, non-ASCII hosts needing punycode, hosts whose last label is
numeric (IPv4 normalization), characters the serializer would
percent-encode — are treated as unparseable; for them the model
returns the input unchanged, which coincides with the source only when
the constructor throws. -/

structure ParsedUrl where
  scheme : String
  host : String
  port : Option Nat
  path : String
  query : Option String
  fragment : Option String
deriving DecidableEq

/-- Default port of the modelled special schemes (`none` for every
other scheme, which is outside the model's domain). -/
def specialDefaultPort (scheme : List Char) : Option Nat :=
  if scheme = "http".data then some 80
  else if scheme = "https".data then some 443
  else if scheme = "ftp".data then some 21
  else if scheme = "ws".data then some 80
  else if scheme = "wss".data then some 443
  else none

/-- Host code points the model accepts: visible ASCII minus the WHATWG
forbidden host code points and `%` (percent-encoded hosts are outside
the domain). -/
def isHostAllowed (c : Char) : Bool :=
  0x21 ≤ c.toNat ∧ c.toNat ≤ 0x7e ∧
  c.toNat ∉ [0x23, 0x25, 0x2f, 0x3a, 0x3c, 0x3e, 0x3f, 0x40, 0x5b, 0x5c, 0x5d, 0x5e, 0x7c]

def isHexDigitCh (c : Char) : Bool :=
  c.isDigit ∨ ('a' ≤ c.toLower ∧ c.toLower ≤ 'f')

/-- A domain label the WHATWG host parser would hand to the IPv4 parser
(all digits, or 0x-prefixed hexadecimal, case-insensitively). -/
def labelIsNumeric (l : List Char) : Bool :=
  (l ≠ [] ∧ l.all Char.isDigit) ∨
  ("0x".data.isPrefixOf (l.map Char.toLower) ∧
    ((l.map Char.toLower).drop 2).all isHexDigitCh)

/-- WHATWG "ends in a number": the last non-empty dot-separated label
is numeric, which triggers IPv4 normalization — outside the model. -/
def hostEndsInNumber (host : List Char) : Bool :=
  let labs := chSplitOnChar '.' host
  let labs2 := if labs.getLast? = some [] then labs.dropLast else labs
  match labs2.getLast? with
  | some l => labelIsNumeric l
  | none => false

def plainUrlChar (c : Char) : Bool :=
  0x21 ≤ c.toNat ∧ c.toNat ≤ 0x7e ∧
  c.toNat ∉ [0x22, 0x3c, 0x3e, 0x5c, 0x5e, 0x60, 0x7b, 0x7c, 0x7d]

/-- Query code points: the special-scheme query percent-encode set also
contains the apostrophe, so it is outside the canonical-form domain. -/
def queryPlainChar (c : Char) : Bool :=
  plainUrlChar c ∧ c.toNat ≠ 0x27

/-- A single-dot path segment: `.` or `%2e`, ASCII case-insensitive. -/
def isSingleDotSeg (s : List Char) : Bool :=
  let l := s.map Char.toLower
  l = ".".data ∨ l = "%2e".data

/-- A double-dot path segment: `..`, `.%2e`, `%2e.` or `%2e%2e`,
ASCII case-insensitive. -/
def isDoubleDotSeg (s : List Char) : Bool :=
  let l := s.map Char.toLower
  l = "..".data ∨ l = ".%2e".data ∨ l = "%2e.".data ∨ l = "%2e%2e".data

/-- The WHATWG path state applied to the slash-separated segments: a
double-dot segment pops the previous segment (appending an empty
segment when it is the final one), a single-dot segment is dropped
(appending an empty segment when final), every other segment — empty
segments included — is kept. -/
def resolvePathGo : List (List Char) → List (List Char) → List (List Char)
  | [], acc => acc.reverse
  | [s], acc =>
    if isDoubleDotSeg s then (acc.drop 1).reverse ++ [[]]
    else if isSingleDotSeg s then acc.reverse ++ [[]]
    else acc.reverse ++ [s]
  | s :: rest, acc =>
    if isDoubleDotSeg s then resolvePathGo rest (acc.drop 1)
    else if isSingleDotSeg s then resolvePathGo rest acc
    else resolvePathGo rest (s :: acc)

def resolvePath (segs : List (List Char)) : List (List Char) :=
  resolvePathGo segs []

def digitsToNat (p : List Char) : Nat :=
  p.foldl (fun a c => a * 10 + digitVal c) 0

def parseUrlCh (cs : List Char) : Option ParsedUrl :=
  let scheme := cs.takeWhile (fun c => c ≠ ':')
  let rest := cs.drop scheme.length
  let schemeL := scheme.map Char.toLower
  match specialDefaultPort schemeL with
  | none => none
  | some defPort =>
    match rest with
    | ':' :: '/' :: '/' :: afterScheme =>
      let hostport := afterScheme.takeWhile (fun c => c ≠ '/' ∧ c ≠ '?' ∧ c ≠ '#')
      let afterHost := afterScheme.drop hostport.length
      let host := hostport.takeWhile (fun c => c ≠ ':')
      let portPart := hostport.drop host.length
      if host = [] then none
      else if ¬ host.all isHostAllowed then none
      else if hostEndsInNumber host then none
      else
        let port? : Option (Option Nat) :=
          match portPart with
          | [] => some none
          | ':' :: p =>
            if p.all Char.isDigit then
              if p = [] then some none
              else
                let n := digitsToNat p
                if 65535 < n then none
                else if n = defPort then some none
                else some (some n)
            else none
          | _ => none
        match port? with
        | none => none
        | some port =>
          let path := afterHost.takeWhile (fun c => c ≠ '?' ∧ c ≠ '#')
          let afterPath := afterHost.drop path.length
          if ¬ path.all plainUrlChar then none
          else
            let pathR : List Char :=
              if path = [] then ['/']
              else '/' :: intercalateCh ['/'] (resolvePath (chSplitOnChar '/' (path.drop 1)))
            let base : ParsedUrl := ⟨⟨schemeL⟩, ⟨host⟩, port, ⟨pathR⟩, none, none⟩
            match afterPath with
            | [] => some base
            | '?' :: restQ =>
              let query := restQ.takeWhile (fun c => c ≠ '#')
              let afterQ := restQ.drop query.length
              if ¬ query.all queryPlainChar then none
              else
                match afterQ with
                | [] => some { base with query := some ⟨query⟩ }
                | '#' :: frag =>
                  if frag.all plainUrlChar then
                    some { base with query := some ⟨query⟩, fragment := some ⟨frag⟩ }
                  else none
                | _ => none
            | '#' :: frag =>
              if frag.all plainUrlChar then some { base with fragment := some ⟨frag⟩ }
              else none
            | _ => none
    | _ => none

def parseUrl (s : String) : Option ParsedUrl := parseUrlCh s.data

/-- WHATWG URL serializer for the modelled fragment
(`URL.prototype.toString`): the port is rendered in canonical decimal. -/
def serializeUrl (u : ParsedUrl) : String :=
  u.scheme ++ "://" ++ u.host ++
  (match u.port with | some p => ":" ++ Nat.repr p | none => "") ++
  u.path ++
  (match u.query with | some q => "?" ++ q | none => "") ++
  (match u.fragment with | some f => "#" ++ f | none => "")

/-- `normalizeUrl` of ExternalLinksRule.ts: parse, lowercase the host,
reserialize; on a parse failure return the input unchanged. -/
def normalizeUrl (url : String) : String :=
  match parseUrl url with
  | some u => serializeUrl { u with host := lowerStr u.host }
  | none => url

/-! ## ExternalLinksRule (src/rules/ExternalLinksRule.ts)

The SQLite store is embedded as a lookup function `String → Option
UrlCacheRow` plus the list of rows the processed element writes; the
report sink is the returned list of reports; the curl subprocess of
`performCheck` (whose shell command also ends in `|| true`, so `execSync`
returns its stdout) is the input `output : String`.  The compiled
`skipRegexes` are abstracted as a predicate `skip : String → Bool`, and
the optional proxy only changes which URL curl requests (the cache key
and the reports always use the original URL), so it does not appear in
the outcome. -/

structure UrlCacheRow where
  url : String
  status : Nat
  redirect_to : Option String
  time : Int
deriving DecidableEq

structure ELOptions where
  proxyUrl : String := ""
  skipRegexes : List String := []
  cacheExpiryFoundSeconds : Int := 30 * 24 * 60 * 60
  cacheExpiryNotFoundSeconds : Int := 3 * 24 * 60 * 60
  timeoutSeconds : Nat := 5
  cacheDatabasePath : String := "cache/external-links.db"
  userAgent : String :=
    "Mozilla/5.0 (Windows NT 10.0; Win64; x64) AppleWebKit/537.36 (KHTML, like Gecko) Chrome/99.0.9999.999 Safari/537.36"
deriving DecidableEq

/-- The two eviction statements run by `setupDatabase` at open time:
`DELETE ... WHERE status >= 200 AND status < 300 AND time < unixepoch() - cacheExpiryFoundSeconds`
and the analogous statement for the other rows with
`cacheExpiryNotFoundSeconds`.  `keepRow` is true when neither deletes the
row. -/
def keepRow (now : Int) (opts : ELOptions) (r : UrlCacheRow) : Bool :=
  if 200 ≤ r.status ∧ r.status < 300 then
    decide (¬ (r.time < now - opts.cacheExpiryFoundSeconds))
  else
    decide (¬ (r.time < now - opts.cacheExpiryNotFoundSeconds))

def setupDatabaseEvict (now : Int) (opts : ELOptions) (rows : List UrlCacheRow) :
    List UrlCacheRow :=
  rows.filter (keepRow now opts)

/-- An element as delivered by a `tag:ready` event: tag name and
attributes (an attribute may be present without a value). -/
structure Elem where
  tagName : String
  attrs : List (String × Option String)

def Elem.getAttr (e : Elem) (n : String) : Option String :=
  match e.attrs.find? (fun p => p.1 = n) with
  | some (_, v) => v
  | none => none

def Elem.hasAttr (e : Elem) (n : String) : Bool :=
  e.attrs.any (fun p => p.1 = n)

inductive ELReport where
  | redirectsTo (url target : String)
  | broken (url : String) (status : Nat)
deriving DecidableEq

structure ELOutcome where
  reports : List ELReport
  writes : List UrlCacheRow
  probed : Bool
deriving DecidableEq

/-- Reports of the cache-hit branch of `tagReady` (lines 219-234): pass
silently on a 2xx status, report the redirect target when one is recorded
(JavaScript truthiness: a null or empty `redirect_to` is not a redirect),
otherwise report broken with the cached status. -/
def cacheOutcomeReports (url : String) (status : Nat) (redirectTo : Option String) :
    List ELReport :=
  if 200 ≤ status ∧ status < 300 then []
  else if jsTruthy redirectTo then [ELReport.redirectsTo url (redirectTo.getD "")]
  else [ELReport.broken url status]

/-- Reports of the fresh-probe path `performCheck` (lines 162-174), as a
function of the parsed status and redirect target. -/
def freshReports (url : String) (status : Nat) (redirectTo : Option String) :
    List ELReport :=
  if status < 200 ∨ 300 ≤ status then
    if jsTruthy redirectTo then [ELReport.redirectsTo url (redirectTo.getD "")]
    else [ELReport.broken url status]
  else []

/-- `performCheck`: run curl (input `output` is its stdout, the command
ending in `|| true`), default the status to 500 when no status line
parses, trim the Location capture (or null), `REPLACE` one row keyed by
the normalized URL, and report from the fresh values. -/
def performCheck (opts : ELOptions) (originalUrl : String) (output : String)
    (now : Int) : ELOutcome :=
  let statusCode := (parseStatus output).getD 500
  let redirectTo := (parseLocation output).map strTrim
  { reports := freshReports originalUrl statusCode redirectTo
    writes := [⟨normalizeUrl originalUrl, statusCode, redirectTo, now⟩]
    probed := true }

/-- HTML-entity decoding done by `tagReady`:
`rawUrl.replace(/&amp;/g,'&').replace(/&lt;/g,'<').replace(/&gt;/g,'>')`. -/
def decodeEntities (s : String) : String :=
  ⟨chReplace "&gt;".data ">".data
    (chReplace "&lt;".data "<".data
      (chReplace "&amp;".data "&".data s.data))⟩

/-- Body of `tagReady` after the URL attribute has been selected. -/
def tagReadyWithAttr (opts : ELOptions) (skip : String → Bool)
    (db : String → Option UrlCacheRow) (output : String) (now : Int)
    (el : Elem) (attrName : String) : ELOutcome :=
  if el.tagName = "link" ∧
      (el.getAttr "rel" = some "canonical" ∨ el.getAttr "rel" = some "alternate") then
    ⟨[], [], false⟩
  else
    match el.getAttr attrName with
    | none => ⟨[], [], false⟩
    | some rawUrl =>
      if rawUrl = "" then ⟨[], [], false⟩
      else
        let url := decodeEntities rawUrl
        if ¬ strStartsWith "http" url = true then ⟨[], [], false⟩
        else if skip url = true then ⟨[], [], false⟩
        else
          match db (normalizeUrl url) with
          | some row => ⟨cacheOutcomeReports url row.status row.redirect_to, [], false⟩
          | none => performCheck opts url output now

/-- `ExternalLinksRule.tagReady` on one element. -/
def tagReadyEL (opts : ELOptions) (skip : String → Bool)
    (db : String → Option UrlCacheRow) (output : String) (now : Int)
    (el : Elem) : ELOutcome :=
  if el.tagName = "a" ∨ el.tagName = "link" then
    tagReadyWithAttr opts skip db output now el "href"
  else if el.tagName = "script" ∨ el.tagName = "img" then
    tagReadyWithAttr opts skip db output now el "src"
  else ⟨[], [], false⟩

/-! ## LatestPackagesRule (src/rules/LatestPackagesRule.ts)

The SQLite store is a lookup `String → Option Nat` (the `current` column
of the row keyed by the exact URL) plus the list of written `(url,
current)` pairs.  The registry request (`curl --fail` piped into
`JSON.parse`, both inside the `try`) is the input `registry`:
`Except.error` is a thrown transport or JSON-parse error, and the parsed
value is either a falsy `JsonData.nul`, an object without a `tags` object
(`JsonData.obj none`), or an object with a tag→version map.  The
`logged` flag records that the `catch` block ran (`console.error`); in
the two `JsonData` cases without usable tags the template string
`data.tags.latest` throws a TypeError AFTER the `current = 0` row was
written, so the write survives while the report is skipped. -/

structure LPOptions where
  cacheExpirySeconds : Int := 2 * 24 * 60 * 60
  timeoutSeconds : Nat := 10
  cacheDatabasePath : String := "cache/latest-packages.db"
  skipUrlPatterns : List String := ["googletagmanager.com"]
deriving DecidableEq

inductive JsonData where
  | nul
  | obj (tags : Option (List (String × String)))
deriving DecidableEq

inductive LPReport where
  | missingIntegrity (url : String)
  | outdatedCached (url : String)
  | notCurrent (packageName packageVersion latest : String)
deriving DecidableEq

structure LPOutcome where
  reports : List LPReport
  writes : List (String × Nat)
  probed : Bool
  logged : Bool
deriving DecidableEq

/-- Backtracking split of a slash-free segment at the last `@` that
leaves a nonempty remainder, as the greedy groups of
`(@?[^/]+)@([^/]+)` produce. -/
def splitLastAt : List Char → Option (List Char × List Char)
  | [] => none
  | c :: rest =>
    match splitLastAt rest with
    | some (a, b) => some (c :: a, b)
    | none => if c = '@' ∧ rest ≠ [] then some ([], rest) else none

/-- Search model of `url.match(/cdn\.jsdelivr\.net\/npm\/(@?[^/]+)@([^/]+)/)`:
at each occurrence of the literal prefix, the group part must match
within the following slash-free run, the first group being everything up
to the last `@` that still leaves a nonempty second group; the first
group must itself be nonempty, else the engine moves on. -/
def matchJsdelivrCh : List Char → Option (String × String)
  | [] => none
  | c :: rest =>
    if "cdn.jsdelivr.net/npm/".data.isPrefixOf (c :: rest) then
      let seg := ((c :: rest).drop 21).takeWhile (fun x => x ≠ '/')
      match splitLastAt seg with
      | some (a, b) => if a ≠ [] then some (⟨a⟩, ⟨b⟩) else matchJsdelivrCh rest
      | none => matchJsdelivrCh rest
    else matchJsdelivrCh rest

def matchJsdelivr (url : String) : Option (String × String) :=
  matchJsdelivrCh url.data

def lookupTag (tags : List (String × String)) (k : String) : Option String :=
  (tags.find? (fun p => p.1 = k)).map Prod.snd

/-- `performPackageCheck`: parse the jsDelivr URL, query the registry,
decide currency by membership of the URL's version among ALL tag values,
upsert the outcome row keyed by the exact URL, and report when not
current; a thrown transport/parse error is logged and leaves reports and
writes empty. -/
def performPackageCheck (url : String) (registry : Except String JsonData) :
    LPOutcome :=
  match matchJsdelivr url with
  | none => ⟨[], [], false, false⟩
  | some (packageName, packageVersion) =>
    match registry with
    | Except.error _ => ⟨[], [], true, true⟩
    | Except.ok JsonData.nul => ⟨[], [(url, 0)], true, true⟩
    | Except.ok (JsonData.obj none) => ⟨[], [(url, 0)], true, true⟩
    | Except.ok (JsonData.obj (some tags)) =>
      if (tags.map Prod.snd).contains packageVersion then
        ⟨[], [(url, 1)], true, false⟩
      else
        ⟨[LPReport.notCurrent packageName packageVersion
            ((lookupTag tags "latest").getD "undefined")],
         [(url, 0)], true, false⟩

/-- `LatestPackagesRule.tagReady` on one element. -/
def tagReadyLP (opts : LPOptions) (db : String → Option Nat)
    (registry : Except String JsonData) (el : Elem) : LPOutcome :=
  let url? : Option String :=
    if el.tagName = "script" then el.getAttr "src"
    else if el.tagName = "link" ∧ el.getAttr "rel" = some "stylesheet" then
      el.getAttr "href"
    else none
  match url? with
  | none => ⟨[], [], false, false⟩
  | some url =>
    if url = "" ∨ strStartsWith "http" url = false ∨
        opts.skipUrlPatterns.any (fun p => jsIncludes url p) then
      ⟨[], [], false, false⟩
    else
      let integrityReports :=
        if el.hasAttr "integrity" = false ∨ el.hasAttr "crossorigin" = false then
          [LPReport.missingIntegrity url]
        else []
      match db url with
      | some cur =>
        ⟨integrityReports ++ (if cur = 0 then [LPReport.outdatedCached url] else []),
         [], false, false⟩
      | none =>
        let out := performPackageCheck url registry
        ⟨integrityReports ++ out.reports, out.writes, out.probed, out.logged⟩

/-! ## InternalLinksRule (src/rules/InternalLinksRule.ts)

The filesystem is embedded as a structure of query functions
(`existsSync`, `lstatSync(..).isFile/isDirectory`, `readdirSync`, where
`readdir = none` models a thrown filesystem error, treated as "does not
exist").  The node `path` helpers are modelled for dot-free paths, the
only shapes the rule builds.  The in-memory memoization of
`doesFileExist` is omitted: the filesystem is static for a run, so the
memoized and unmemoized functions agree.  Fragment checking is
orthogonal to resolution and not modelled; the returned
`ResolveOutcome` records which candidate won (the file a fragment would
be checked against) or that the broken-link report fires. -/

def dirnameCh (cs : List Char) : List Char :=
  let r1 := cs.reverse.dropWhile (fun c => c = '/')
  let r2 := r1.dropWhile (fun c => c ≠ '/')
  let r3 := r2.dropWhile (fun c => c = '/')
  if r3 = [] then (if cs.head? = some '/' then ['/'] else ['.']) else r3.reverse

def basenameCh (cs : List Char) : List Char :=
  ((cs.reverse.dropWhile (fun c => c = '/')).takeWhile (fun c => c ≠ '/')).reverse

def dirnameStr (p : String) : String := ⟨dirnameCh p.data⟩

def basenameStr (p : String) : String := ⟨basenameCh p.data⟩

/-- node `path.join` for dot-free segments: concatenate with `/`,
collapsing duplicate separators, keeping a leading slash of the first
part and a trailing slash of the second. -/
def pathJoin (a b : String) : String :=
  let segs := ((chSplitOnChar '/' a.data) ++ (chSplitOnChar '/' b.data)).filter
    (fun s => s ≠ [])
  let lead : List Char := if a.data.head? = some '/' then ['/'] else []
  let trail : List Char := if b.data.getLast? = some '/' then ['/'] else []
  ⟨lead ++ intercalateCh ['/'] segs ++ trail⟩

structure ILOptions where
  webRoot : String := "build"
  alternativeExtensions : List String := [".html", ".php"]
  indexFile : String := "index.html"
deriving DecidableEq

structure FS where
  existsS : String → Bool
  isFile : String → Bool
  isDir : String → Bool
  readdir : String → Option (List String)

/-- `InternalLinksRule.doesFileExist`: the path must exist, be a regular
file, and its basename must appear verbatim in the actual listing of its
parent directory (case verification); a listing error counts as absent. -/
def doesFileExist (fs : FS) (p : String) : Bool :=
  if fs.existsS p = false then false
  else if fs.isFile p = false then false
  else
    match fs.readdir (dirnameStr p) with
    | none => false
    | some l => l.contains (basenameStr p)

inductive ResolveOutcome where
  | direct (p : String)
  | viaExt (p : String)
  | viaIndex (p : String)
  | dirIndex (p : String)
  | broken
deriving DecidableEq

/-- `InternalLinksRule.checkLink`: root-relative links resolve against
the web root, others against the referencing file's directory; a
trailing-slash link requires the directory to contain the index file;
otherwise try the direct file, then each configured alternative
extension in order, then the directory-index fallback, the first match
winning; report broken when all fail. -/
def checkLink (fs : FS) (opts : ILOptions) (baseDir link : String) : ResolveOutcome :=
  let resolved :=
    if strStartsWith "/" link then pathJoin opts.webRoot link
    else pathJoin baseDir link
  if strEndsWith "/" link then
    if fs.existsS resolved = true ∧ fs.isDir resolved = true ∧
        doesFileExist fs (pathJoin resolved opts.indexFile) = true then
      ResolveOutcome.dirIndex (pathJoin resolved opts.indexFile)
    else ResolveOutcome.broken
  else
    if doesFileExist fs resolved = true then ResolveOutcome.direct resolved
    else
      match opts.alternativeExtensions.find?
          (fun ext => doesFileExist fs (resolved ++ ext)) with
      | some ext => ResolveOutcome.viaExt (resolved ++ ext)
      | none =>
        if fs.existsS resolved = true ∧ fs.isDir resolved = true ∧
            doesFileExist fs (pathJoin resolved opts.indexFile) = true then
          ResolveOutcome.viaIndex (pathJoin resolved opts.indexFile)
        else ResolveOutcome.broken

/-! ## AlternateLanguageLinksRule (src/rules/AlternateLanguageLinksRule.ts)

The reciprocity loop body for one alternate link.  The live fetch reuses
the `syncFetch` embedding (with the options the rule passes), and the
cheerio query `link[rel="alternate"][hreflang]` over the remote body is
abstracted as an input `parseAlts` returning the (href, hreflang)
attribute pairs. -/

inductive ALReport where
  | notAccessible (href : String)
  | reciprocalNotFound (href canonicalUrl lang : String)
deriving DecidableEq

def reciprocityCheck (canonicalUrl : String) (pageLang : Option String) (href : String)
    (exec : Except String String)
    (parseAlts : String → List (Option String × Option String)) : List ALReport :=
  if href = canonicalUrl then []
  else
    let result := syncFetch exec { timeoutSeconds := 10, maxRedirs := 5 }
    if result.success = false ∨ jsTruthy result.body = false then
      [ALReport.notAccessible href]
    else
      let expectedHreflang := pageLang.getD ""
      let foundReciprocal := (parseAlts (result.body.getD "")).any
        (fun p => p.1 = some canonicalUrl ∧ p.2 = some expectedHreflang)
      if foundReciprocal then []
      else [ALReport.reciprocalNotFound href canonicalUrl expectedHreflang]

/-! ## THEOREMS -/

/-- C1 counterexample.  A transport failure (timeout, DNS failure,
connection refused) is absorbed by the `|| true` of the shell command, so
`execSync` returns normally with empty output: the result has
`success = false` but carries NO error message, refuting the claim that
every transport failure yields `{success: false, error: <message>}`. -/
theorem syncFetch_error_message_cex :
    (syncFetch (Except.ok "") {}).success = false ∧
    (syncFetch (Except.ok "") {}).statusCode = none ∧
    (syncFetch (Except.ok "") {}).error = none := by
  decide

/-- C1 (amended).  `syncFetch` always returns a `SyncFetchResult` (it is a
total function, every `execSync` exception being caught); `success` is
true exactly when a status code was parsed from the output and lies in
[200,400); when `execSync` itself throws, the result has `success = false`
and carries the exception message; but a transport failure absorbed by
`|| true` (an output with no parseable status line) yields
`success = false` with no error message. -/
theorem syncFetch_boundary (exec : Except String String) (opts : SyncFetchOptions) :
    ((syncFetch exec opts).success = true ↔
      ∃ c, (syncFetch exec opts).statusCode = some c ∧ 200 ≤ c ∧ c < 400) ∧
    (∀ msg, exec = Except.error msg →
      (syncFetch exec opts).success = false ∧ (syncFetch exec opts).error = some msg) ∧
    (∀ out, exec = Except.ok out → parseStatus out = none →
      (syncFetch exec opts).success = false ∧ (syncFetch exec opts).error = none) := by
  refine ⟨?_, ?_, ?_⟩
  · cases exec with
    | error msg => simp [syncFetch]
    | ok out =>
      cases h : parseStatus out with
      | none => simp [syncFetch, h]
      | some c =>
        simp only [syncFetch, h]
        constructor
        · intro hs
          exact ⟨c, rfl, by simpa using of_decide_eq_true hs⟩
        · rintro ⟨c', hc', h1, h2⟩
          cases hc'
          exact decide_eq_true (by exact ⟨h1, h2⟩)
  · rintro msg rfl
    simp [syncFetch]
  · rintro out rfl h
    simp [syncFetch, h]

/-- C1 witness: the amended theorem applied at a thrown exec error and at
an empty curl output. -/
theorem syncFetch_boundary_witness :
    ((syncFetch (Except.error "curl failed") {}).success = false ∧
      (syncFetch (Except.error "curl failed") {}).error = some "curl failed") ∧
    ((syncFetch (Except.ok "") {}).success = false ∧
      (syncFetch (Except.ok "") {}).error = none) := by
  refine ⟨(syncFetch_boundary (Except.error "curl failed") {}).2.1 "curl failed" rfl,
    (syncFetch_boundary (Except.ok "") {}).2.2 "" rfl (by decide)⟩

/-- C2: processing an element whose (decoded) URL has a row in the cache
performs no probe and writes nothing; the reported outcome is the
cache-hit outcome of the row's status and redirect target, and that
outcome function is identical to the report logic of the fresh-probe
path `performCheck` for the same status and redirect-target values
(silence on [200,300), a redirect report for a truthy recorded target,
a broken report otherwise). -/
theorem cache_hit_served_from_cache (opts : ELOptions) (skip : String → Bool)
    (db : String → Option UrlCacheRow) (output : String) (now : Int)
    (el : Elem) (u : String) (row : UrlCacheRow)
    (htag : el.tagName = "a") (hattr : el.getAttr "href" = some u) (hne : u ≠ "")
    (hhttp : strStartsWith "http" (decodeEntities u) = true)
    (hskip : skip (decodeEntities u) = false)
    (hdb : db (normalizeUrl (decodeEntities u)) = some row) :
    tagReadyEL opts skip db output now el =
      ⟨cacheOutcomeReports (decodeEntities u) row.status row.redirect_to, [], false⟩ ∧
    ∀ (u' : String) (s : Nat) (r : Option String),
      cacheOutcomeReports u' s r = freshReports u' s r := by
  constructor
  · unfold tagReadyEL tagReadyWithAttr
    rw [htag]
    simp [hattr, hne, hhttp, hskip, hdb]
  · intro u' s r
    by_cases h : 200 ≤ s ∧ s < 300
    · have h2 : ¬ (s < 200 ∨ 300 ≤ s) := by omega
      simp [cacheOutcomeReports, freshReports, h, h2]
    · have h2 : s < 200 ∨ 300 ≤ s := by omega
      simp [cacheOutcomeReports, freshReports, h, h2]

/-- C2 witness: a warm cache row with status 404 for `http://ex.com/` is
served without probing and reported broken. -/
theorem cache_hit_served_from_cache_witness :
    tagReadyEL {} (fun _ => false)
      (fun s => if s = "http://ex.com/" then some ⟨"http://ex.com/", 404, none, 0⟩ else none)
      "" 0 ⟨"a", [("href", some "http://ex.com/")]⟩ =
      ⟨[ELReport.broken "http://ex.com/" 404], [], false⟩ := by
  have h := (cache_hit_served_from_cache {} (fun _ => false)
    (fun s => if s = "http://ex.com/" then some ⟨"http://ex.com/", 404, none, 0⟩ else none)
    "" 0 ⟨"a", [("href", some "http://ex.com/")]⟩ "http://ex.com/"
    ⟨"http://ex.com/", 404, none, 0⟩ rfl (by decide) (by decide) (by decide) rfl
    (by decide)).1
  exact h.trans (by decide)

/-- C3 counterexample.  A positive (status 200) row written at time T = 0
with positive-expiry window W = 10 is RETAINED when the store is opened at
time exactly T + W = 10 (the eviction predicate is the strict
`time < now - W`), refuting the claim that opening at any time ≥ T + W
deletes the row. -/
theorem expiry_boundary_cex :
    setupDatabaseEvict 10
        { cacheExpiryFoundSeconds := 10, cacheExpiryNotFoundSeconds := 3 }
        [⟨"http://ex.com/", 200, none, 0⟩] = [⟨"http://ex.com/", 200, none, 0⟩] ∧
    (10 : Int) = 0 + 10 := by
  decide

/-- C3 (amended).  A cache row written at time T with positive-expiry
window W is retained by the eviction run at open time `now` if and only
if `now ≤ T + W` (so it is deleted, and the URL re-probed, exactly when
`now > T + W`, i.e. strictly after T + W); the analogous statement holds
for negative rows with the negative-expiry window. -/
theorem expiry_boundary (now : Int) (opts : ELOptions) (r : UrlCacheRow) :
    (200 ≤ r.status ∧ r.status < 300 →
      ((setupDatabaseEvict now opts [r] = [r] ↔
          now ≤ r.time + opts.cacheExpiryFoundSeconds) ∧
        (setupDatabaseEvict now opts [r] = [] ↔
          r.time + opts.cacheExpiryFoundSeconds < now))) ∧
    (¬ (200 ≤ r.status ∧ r.status < 300) →
      ((setupDatabaseEvict now opts [r] = [r] ↔
          now ≤ r.time + opts.cacheExpiryNotFoundSeconds) ∧
        (setupDatabaseEvict now opts [r] = [] ↔
          r.time + opts.cacheExpiryNotFoundSeconds < now))) := by
  have hs : ∀ (b : Bool), keepRow now opts r = b →
      setupDatabaseEvict now opts [r] = (bif b then [r] else []) := by
    intro b hb
    unfold setupDatabaseEvict
    rw [List.filter_singleton, hb]
  constructor
  · intro h
    have hk : keepRow now opts r = true ↔
        now ≤ r.time + opts.cacheExpiryFoundSeconds := by
      unfold keepRow
      rw [if_pos h]
      simp only [decide_eq_true_eq]
      omega
    constructor
    · constructor
      · intro he
        cases hb : keepRow now opts r with
        | false =>
          rw [hs false hb] at he
          simp at he
        | true => exact hk.mp hb
      · intro hle
        rw [hs true (hk.mpr hle)]
        rfl
    · constructor
      · intro he
        cases hb : keepRow now opts r with
        | false =>
          have hnot : ¬ now ≤ r.time + opts.cacheExpiryFoundSeconds := by
            intro hc
            rw [hk.mpr hc] at hb
            cases hb
          omega
        | true =>
          rw [hs true hb] at he
          simp at he
      · intro hlt
        have hb : keepRow now opts r = false := by
          cases hb2 : keepRow now opts r with
          | false => rfl
          | true =>
            exfalso
            have := hk.mp hb2
            omega
        rw [hs false hb]
        rfl
  · intro h
    have hk : keepRow now opts r = true ↔
        now ≤ r.time + opts.cacheExpiryNotFoundSeconds := by
      unfold keepRow
      rw [if_neg h]
      simp only [decide_eq_true_eq]
      omega
    constructor
    · constructor
      · intro he
        cases hb : keepRow now opts r with
        | false =>
          rw [hs false hb] at he
          simp at he
        | true => exact hk.mp hb
      · intro hle
        rw [hs true (hk.mpr hle)]
        rfl
    · constructor
      · intro he
        cases hb : keepRow now opts r with
        | false =>
          have hnot : ¬ now ≤ r.time + opts.cacheExpiryNotFoundSeconds := by
            intro hc
            rw [hk.mpr hc] at hb
            cases hb
          omega
        | true =>
          rw [hs true hb] at he
          simp at he
      · intro hlt
        have hb : keepRow now opts r = false := by
          cases hb2 : keepRow now opts r with
          | false => rfl
          | true =>
            exfalso
            have := hk.mp hb2
            omega
        rw [hs false hb]
        rfl

/-- C3 witness: the amended theorem applied at a positive row written at
T = 0 with W = 10, opened at time 10 (retained) and a negative row with
window 3 opened at time 4 (deleted). -/
theorem expiry_boundary_witness :
    setupDatabaseEvict 10
        { cacheExpiryFoundSeconds := 10, cacheExpiryNotFoundSeconds := 3 }
        [⟨"http://ex.com/", 200, none, 0⟩] = [⟨"http://ex.com/", 200, none, 0⟩] ∧
    setupDatabaseEvict 4
        { cacheExpiryFoundSeconds := 10, cacheExpiryNotFoundSeconds := 3 }
        [⟨"http://ex.com/", 404, none, 0⟩] = [] := by
  constructor
  · exact (((expiry_boundary 10
      { cacheExpiryFoundSeconds := 10, cacheExpiryNotFoundSeconds := 3 }
      ⟨"http://ex.com/", 200, none, 0⟩).1 (by decide)).1).mpr (by decide)
  · exact (((expiry_boundary 4
      { cacheExpiryFoundSeconds := 10, cacheExpiryNotFoundSeconds := 3 }
      ⟨"http://ex.com/", 404, none, 0⟩).2 (by decide)).2).mpr (by decide)

/-- C4 counterexample.  Status 399 is NOT treated as live: both the
cache-hit path and the fresh-probe path report "broken with status 399"
for a 399 row with no recorded redirect target, refuting the claim that
statuses 200 and 399 are both live.  (The reporting boundary is
[200,300), not [200,400).) -/
theorem status_399_reported_cex :
    cacheOutcomeReports "http://ex.com/" 399 none =
      [ELReport.broken "http://ex.com/" 399] ∧
    freshReports "http://ex.com/" 399 none =
      [ELReport.broken "http://ex.com/" 399] := by
  decide

/-- C4 (amended).  On both the cache-hit and the fresh-probe paths,
statuses in [200,300) (in particular 200) are live: no report is emitted;
every status outside [200,300) — including 399, 400 and 500 — yields
exactly one report, a redirect report when a truthy redirect target is
recorded and a broken report with that status otherwise; and the two
paths agree. -/
theorem status_boundary (u : String) (s : Nat) (r : Option String) :
    (200 ≤ s ∧ s < 300 → cacheOutcomeReports u s r = [] ∧ freshReports u s r = []) ∧
    (s < 200 ∨ 300 ≤ s →
      (cacheOutcomeReports u s r).length = 1 ∧
      cacheOutcomeReports u s r = freshReports u s r ∧
      (jsTruthy r = false → cacheOutcomeReports u s r = [ELReport.broken u s])) := by
  constructor
  · intro h
    have h2 : ¬ (s < 200 ∨ 300 ≤ s) := by omega
    simp [cacheOutcomeReports, freshReports, h, h2]
  · intro h
    have h2 : ¬ (200 ≤ s ∧ s < 300) := by omega
    refine ⟨?_, ?_, ?_⟩
    · by_cases ht : jsTruthy r = true
      · simp [cacheOutcomeReports, h2, ht]
      · simp [cacheOutcomeReports, h2, ht]
    · simp [cacheOutcomeReports, freshReports, h, h2]
    · intro ht
      simp [cacheOutcomeReports, h2, ht]

/-- C4 witness: the amended theorem applied at statuses 200 (live),
400 and 500 (each broken with exactly one report). -/
theorem status_boundary_witness :
    cacheOutcomeReports "http://ex.com/" 200 none = [] ∧
    (cacheOutcomeReports "http://ex.com/" 400 none).length = 1 ∧
    cacheOutcomeReports "http://ex.com/" 500 none =
      [ELReport.broken "http://ex.com/" 500] := by
  refine ⟨((status_boundary "http://ex.com/" 200 none).1 (by omega)).1,
    ((status_boundary "http://ex.com/" 400 none).2 (by omega)).1,
    ((status_boundary "http://ex.com/" 500 none).2 (by omega)).2.2 (by decide)⟩

/-- C10: a probe whose curl output contains no parseable HTTP status line
and no Location header (the shape every `|| true`-absorbed transport
failure produces: curl dumps nothing, so the output is empty) is treated
as status 500: a row with status 500 and no redirect target is written to
the cache, keyed by the normalized URL, and the element is reported
broken with status 500 — the failure is cached, not treated as
transient. -/
theorem no_status_cached_as_500 (opts : ELOptions) (url output : String) (now : Int)
    (hs : parseStatus output = none) (hl : parseLocation output = none) :
    performCheck opts url output now =
      ⟨[ELReport.broken url 500], [⟨normalizeUrl url, 500, none, now⟩], true⟩ := by
  unfold performCheck
  rw [hs, hl]
  simp [freshReports, jsTruthy]

/-- C5 counterexample.  The WHATWG constructor the source calls resolves
dot segments when it reserializes, so the path of a parseable URL is NOT
untouched: `normalizeUrl` maps `http://Example.COM/a/../b` (which
parses) to `http://example.com/b`, not to the input with only its host
lowercased — refuting the claim that for every parseable URL the path
is returned untouched. -/
theorem normalizeUrl_path_touched_cex :
    parseUrl "http://Example.COM/a/../b" ≠ none ∧
    normalizeUrl "http://Example.COM/a/../b" = "http://example.com/b" ∧
    normalizeUrl "http://Example.COM/a/../b" ≠ "http://example.com/a/../b" := by
  decide

/-- C5 (amended).  `normalizeUrl` never fails: a string the parser
rejects is returned unchanged (for the source this is the catch branch;
constructor-accepted shapes outside the modelled fragment — userinfo,
embedded whitespace, non-ASCII or numeric hosts, non-special schemes —
are not modelled); a parseable URL is returned in WHATWG-serialized
form with the host component lowercased: the query and fragment are
kept verbatim, the port is canonical decimal with the scheme's default
port stripped, and the path has dot segments resolved — hence it is
untouched exactly when it contains none, so path casing is preserved
while host casing is not, and the two spellings of the example URL
normalize to the same cache key. -/
theorem normalizeUrl_normalization :
    (∀ s, parseUrl s = none → normalizeUrl s = s) ∧
    (∀ s u, parseUrl s = some u →
      normalizeUrl s =
        serializeUrl ⟨u.scheme, lowerStr u.host, u.port, u.path, u.query, u.fragment⟩) ∧
    normalizeUrl "HTTP://Example.COM/Path?x=1" = normalizeUrl "http://example.com/Path?x=1" ∧
    normalizeUrl "HTTP://Example.COM/Path?x=1" = "http://example.com/Path?x=1" ∧
    normalizeUrl "ftp://Example.COM:21/x" = "ftp://example.com/x" ∧
    normalizeUrl "http://example.com:8080/x" = "http://example.com:8080/x" ∧
    normalizeUrl "not a valid url" = "not a valid url" := by
  refine ⟨?_, ?_, by decide, by decide, by decide, by decide, by decide⟩
  · intro s h
    unfold normalizeUrl
    rw [h]
  · intro s u h
    unfold normalizeUrl
    rw [h]

/-- C5 witness: the amended theorem applied at an unparseable string and
at a URL with an uppercase host. -/
theorem normalizeUrl_normalization_witness :
    normalizeUrl "notaurl" = "notaurl" ∧
    normalizeUrl "http://A.com/B" =
      serializeUrl ⟨"http", lowerStr "A.com", none, "/B", none, none⟩ := by
  constructor
  · exact normalizeUrl_normalization.1 "notaurl" (by decide)
  · exact normalizeUrl_normalization.2.1 "http://A.com/B"
      ⟨"http", "A.com", none, "/B", none, none⟩ (by decide)

/-- C6: with web root `/site`, the alternative extension list `[".html"]`
and index file `index.html`, the link `/about` resolves successfully if
and only if one of `/site/about` (direct, case-verified), `/site/about.html`
(alternative extension) or `/site/about/index.html` (directory-index
fallback, requiring `/site/about` to be an existing directory — the
stated consistency hypothesis any real filesystem satisfies) exists;
the candidates are tried in exactly that order with the first match
winning; and a target present in the parent directory only under a
different basename case (`About` listed, `about` requested) fails the
verbatim listing check. -/
theorem internal_link_resolution (fs : FS) (bd : String)
    (hcons : doesFileExist fs "/site/about/index.html" = true →
      fs.existsS "/site/about" = true ∧ fs.isDir "/site/about" = true) :
    (checkLink fs ⟨"/site", [".html"], "index.html"⟩ bd "/about" ≠ ResolveOutcome.broken ↔
      (doesFileExist fs "/site/about" = true ∨
        doesFileExist fs "/site/about.html" = true ∨
        doesFileExist fs "/site/about/index.html" = true)) ∧
    (doesFileExist fs "/site/about" = true →
      checkLink fs ⟨"/site", [".html"], "index.html"⟩ bd "/about" =
        ResolveOutcome.direct "/site/about") ∧
    (doesFileExist fs "/site/about" = false →
      doesFileExist fs "/site/about.html" = true →
      checkLink fs ⟨"/site", [".html"], "index.html"⟩ bd "/about" =
        ResolveOutcome.viaExt "/site/about.html") ∧
    (fs.readdir "/site" = some ["About"] →
      doesFileExist fs "/site/about" = false) := by
  have e0 : strEndsWith "/" "/about" = false := by decide
  have e1 : strStartsWith "/" "/about" = true := by decide
  have e2 : pathJoin "/site" "/about" = "/site/about" := by decide
  have e3 : ("/site/about" ++ ".html" : String) = "/site/about.html" := by decide
  have e4 : pathJoin "/site/about" "index.html" = "/site/about/index.html" := by decide
  have hform : checkLink fs ⟨"/site", [".html"], "index.html"⟩ bd "/about" =
      (if doesFileExist fs "/site/about" = true then ResolveOutcome.direct "/site/about"
       else if doesFileExist fs "/site/about.html" = true then
         ResolveOutcome.viaExt "/site/about.html"
       else if fs.existsS "/site/about" = true ∧ fs.isDir "/site/about" = true ∧
           doesFileExist fs "/site/about/index.html" = true then
         ResolveOutcome.viaIndex "/site/about/index.html"
       else ResolveOutcome.broken) := by
    by_cases h1 : doesFileExist fs "/site/about" = true
    · unfold checkLink
      simp [e0, e1, e2, e3, e4, h1]
    · by_cases h2 : doesFileExist fs "/site/about.html" = true
      · unfold checkLink
        simp [e0, e1, e2, e3, e4, h1, h2, List.find?]
      · unfold checkLink
        simp [e0, e1, e2, e3, e4, h1, h2, List.find?]
  rw [hform]
  refine ⟨?_, ?_, ?_, ?_⟩
  · constructor
    · intro hnb
      by_cases h1 : doesFileExist fs "/site/about" = true
      · exact Or.inl h1
      · by_cases h2 : doesFileExist fs "/site/about.html" = true
        · exact Or.inr (Or.inl h2)
        · by_cases h3 : fs.existsS "/site/about" = true ∧ fs.isDir "/site/about" = true ∧
              doesFileExist fs "/site/about/index.html" = true
          · exact Or.inr (Or.inr h3.2.2)
          · exfalso
            apply hnb
            rw [if_neg h1, if_neg h2, if_neg h3]
    · intro hd
      by_cases h1 : doesFileExist fs "/site/about" = true
      · rw [if_pos h1]
        simp
      · rw [if_neg h1]
        by_cases h2 : doesFileExist fs "/site/about.html" = true
        · rw [if_pos h2]
          simp
        · rw [if_neg h2]
          have h3 : doesFileExist fs "/site/about/index.html" = true := by
            rcases hd with h | h | h
            · exact absurd h h1
            · exact absurd h h2
            · exact h
          rw [if_pos ⟨(hcons h3).1, (hcons h3).2, h3⟩]
          simp
  · intro h1
    rw [if_pos h1]
  · intro h1 h2
    rw [if_neg (by simp [h1]), if_pos h2]
  · intro hrd
    unfold doesFileExist
    by_cases he : fs.existsS "/site/about" = false
    · rw [if_pos he]
    · rw [if_neg he]
      by_cases hf : fs.isFile "/site/about" = false
      · rw [if_pos hf]
      · rw [if_neg hf]
        rw [show dirnameStr "/site/about" = "/site" from by decide, hrd]
        decide

/-- C6 witness: the theorem applied at a concrete filesystem containing
only the directory `/site` and the file `/site/about.html`: the link
`/about` resolves via the first alternative extension. -/
theorem internal_link_resolution_witness :
    checkLink
      ⟨fun p => ["/site", "/site/about.html"].contains p,
        fun p => p = "/site/about.html", fun p => p = "/site",
        fun p => if p = "/site" then some ["about.html"] else none⟩
      ⟨"/site", [".html"], "index.html"⟩ "/x" "/about" =
      ResolveOutcome.viaExt "/site/about.html" := by
  exact (internal_link_resolution
    ⟨fun p => ["/site", "/site/about.html"].contains p,
      fun p => p = "/site/about.html", fun p => p = "/site",
      fun p => if p = "/site" then some ["about.html"] else none⟩
    "/x" (by decide)).2.2.1 (by decide) (by decide)

/-- C9 counterexample.  A fetch that SUCCEEDS (status 200 parsed) but
returns an empty body is reported "not accessible" — not
"reciprocal link not found" as the claim's success branch prescribes for
a body with no matching alternate entry — because the code's guard is
`!result.success || !result.body` and an empty body is falsy. -/
theorem reciprocity_empty_body_cex :
    (syncFetch (Except.ok "HTTP/1.1 200 OK\r\nContent-Length: 0\r\n\r\n")
        { timeoutSeconds := 10, maxRedirs := 5 }).success = true ∧
    reciprocityCheck "http://a.example/en" (some "en") "http://b.example/fr"
        (Except.ok "HTTP/1.1 200 OK\r\nContent-Length: 0\r\n\r\n") (fun _ => []) =
      [ALReport.notAccessible "http://b.example/fr"] ∧
    [ALReport.notAccessible "http://b.example/fr"] ≠
      [ALReport.reciprocalNotFound "http://b.example/fr" "http://a.example/en" "en"] := by
  decide

/-- C9 (amended).  For every alternate link whose href differs from the
canonical URL: when the live fetch fails OR succeeds with an empty (or
absent) body, exactly one "not accessible" violation is reported; when it
succeeds with a nonempty body, the remote alternate entries are searched
for one whose href equals the canonical URL and whose hreflang equals the
document's declared language (empty string when no `lang` is declared),
and exactly one "reciprocal link not found" violation is reported when no
such entry exists, none when one does. -/
theorem reciprocity_check_spec (canonicalUrl : String) (pageLang : Option String)
    (href : String) (exec : Except String String)
    (parseAlts : String → List (Option String × Option String))
    (hne : href ≠ canonicalUrl) :
    ((syncFetch exec { timeoutSeconds := 10, maxRedirs := 5 }).success = false ∨
        jsTruthy (syncFetch exec { timeoutSeconds := 10, maxRedirs := 5 }).body = false →
      reciprocityCheck canonicalUrl pageLang href exec parseAlts =
        [ALReport.notAccessible href]) ∧
    ((syncFetch exec { timeoutSeconds := 10, maxRedirs := 5 }).success = true →
      ∀ b, (syncFetch exec { timeoutSeconds := 10, maxRedirs := 5 }).body = some b →
        b ≠ "" →
        ((parseAlts b).any
            (fun p => p.1 = some canonicalUrl ∧ p.2 = some (pageLang.getD "")) = true →
          reciprocityCheck canonicalUrl pageLang href exec parseAlts = []) ∧
        ((parseAlts b).any
            (fun p => p.1 = some canonicalUrl ∧ p.2 = some (pageLang.getD "")) = false →
          reciprocityCheck canonicalUrl pageLang href exec parseAlts =
            [ALReport.reciprocalNotFound href canonicalUrl (pageLang.getD "")])) := by
  constructor
  · intro hfail
    unfold reciprocityCheck
    rw [if_neg hne, if_pos hfail]
  · intro hsucc b hb hbne
    have hfail : ¬ ((syncFetch exec { timeoutSeconds := 10, maxRedirs := 5 }).success = false ∨
        jsTruthy (syncFetch exec { timeoutSeconds := 10, maxRedirs := 5 }).body = false) := by
      simp [hsucc, hb, jsTruthy, hbne]
    constructor
    · intro hfound
      unfold reciprocityCheck
      rw [if_neg hne, if_neg hfail, hb]
      simp only [Option.getD_some]
      rw [if_pos hfound]
    · intro hnf
      unfold reciprocityCheck
      rw [if_neg hne, if_neg hfail, hb]
      simp only [Option.getD_some]
      rw [if_neg (by rw [hnf]; simp)]

/-- C9 witness: the amended theorem applied at a failed fetch (one
"not accessible" report) and at a successful fetch whose body carries the
matching back-link (no report). -/
theorem reciprocity_check_spec_witness :
    reciprocityCheck "http://a.example/en" (some "en") "http://b.example/fr"
        (Except.error "timeout") (fun _ => []) =
      [ALReport.notAccessible "http://b.example/fr"] ∧
    reciprocityCheck "http://a.example/en" (some "en") "http://b.example/fr"
        (Except.ok "HTTP/1.1 200 OK\r\n\r\n<html>")
        (fun _ => [(some "http://a.example/en", some "en")]) = [] := by
  constructor
  · exact (reciprocity_check_spec "http://a.example/en" (some "en") "http://b.example/fr"
      (Except.error "timeout") (fun _ => []) (by decide)).1 (by decide)
  · exact ((reciprocity_check_spec "http://a.example/en" (some "en") "http://b.example/fr"
      (Except.ok "HTTP/1.1 200 OK\r\n\r\n<html>")
      (fun _ => [(some "http://a.example/en", some "en")]) (by decide)).2 (by decide)
      "<html>" (by decide) (by decide)).1 (by decide)

/-- C7 counterexample.  A script element whose URL matches the default
skip-substring `googletagmanager.com` and which is MISSING the integrity
and crossorigin attributes produces no report at all: the skip filter
returns before the integrity check, so it skips both checks, refuting the
claim that only the version-currency check is skipped. -/
theorem skip_pattern_skips_integrity_cex :
    tagReadyLP {} (fun _ => none) (Except.error "unused")
        ⟨"script", [("src", some "https://www.googletagmanager.com/gtag/js")]⟩ =
      ⟨[], [], false, false⟩ ∧
    Elem.hasAttr ⟨"script", [("src", some "https://www.googletagmanager.com/gtag/js")]⟩
        "integrity" = false ∧
    jsIncludes "https://www.googletagmanager.com/gtag/js" "googletagmanager.com" = true := by
  decide

/-- C7 (amended).  A URL matching a configured skip-substring skips the
ELEMENT entirely — both the integrity-attributes check and the
version-currency check.  Otherwise the two checks are independent and not
gated by the cache: a missing integrity or crossorigin attribute is
reported for every cache state and every registry outcome (no network
call and no cache row are needed for that report), and on a cache hit no
probe is made and nothing is written. -/
theorem latest_packages_checks (opts : LPOptions) (db : String → Option Nat)
    (registry : Except String JsonData) (el : Elem) (url : String)
    (htag : el.tagName = "script") (hattr : el.getAttr "src" = some url)
    (hne : url ≠ "") (hhttp : strStartsWith "http" url = true) :
    (opts.skipUrlPatterns.any (fun p => jsIncludes url p) = true →
      tagReadyLP opts db registry el = ⟨[], [], false, false⟩) ∧
    (opts.skipUrlPatterns.any (fun p => jsIncludes url p) = false →
      ((el.hasAttr "integrity" = false ∨ el.hasAttr "crossorigin" = false) →
        LPReport.missingIntegrity url ∈ (tagReadyLP opts db registry el).reports) ∧
      (∀ cur, db url = some cur →
        (tagReadyLP opts db registry el).probed = false ∧
        (tagReadyLP opts db registry el).writes = [])) := by
  constructor
  · intro hskip
    unfold tagReadyLP
    rw [htag]
    simp [hattr, hne, hhttp, hskip]
  · intro hskip
    constructor
    · intro hmiss
      cases hdb : db url with
      | some cur =>
        unfold tagReadyLP
        rw [htag]
        rcases hmiss with h | h
        · simp [hattr, hne, hhttp, hskip, hdb, h]
        · simp [hattr, hne, hhttp, hskip, hdb, h]
      | none =>
        unfold tagReadyLP
        rw [htag]
        rcases hmiss with h | h
        · simp [hattr, hne, hhttp, hskip, hdb, h]
        · simp [hattr, hne, hhttp, hskip, hdb, h]
    · intro cur hdb
      unfold tagReadyLP
      rw [htag]
      by_cases h1 : el.hasAttr "integrity" = false
      · simp [hattr, hne, hhttp, hskip, hdb, h1]
      · by_cases h2 : el.hasAttr "crossorigin" = false
        · simp [hattr, hne, hhttp, hskip, hdb, h1, h2]
        · simp [hattr, hne, hhttp, hskip, hdb, h1, h2]

/-- C7 witness: the amended theorem applied at a cached script element
missing its integrity attribute, with no skip pattern matching. -/
theorem latest_packages_checks_witness :
    LPReport.missingIntegrity "https://cdn.example.com/x.js" ∈
      (tagReadyLP {} (fun u => if u = "https://cdn.example.com/x.js" then some 1 else none)
        (Except.error "offline")
        ⟨"script", [("src", some "https://cdn.example.com/x.js")]⟩).reports ∧
    (tagReadyLP {} (fun u => if u = "https://cdn.example.com/x.js" then some 1 else none)
        (Except.error "offline")
        ⟨"script", [("src", some "https://cdn.example.com/x.js")]⟩).probed = false := by
  have h := (latest_packages_checks {}
    (fun u => if u = "https://cdn.example.com/x.js" then some 1 else none)
    (Except.error "offline")
    ⟨"script", [("src", some "https://cdn.example.com/x.js")]⟩
    "https://cdn.example.com/x.js" rfl (by decide) (by decide) (by decide)).2 (by decide)
  exact ⟨h.1 (by decide), (h.2 1 (by decide)).1⟩

/-- C8: on the cache-miss path, a thrown transport or JSON-parse error
from the registry request is logged, produces no violation report, and
writes nothing to the cache store — the check is retried on the next
run; the same holds for the whole `tagReady` outcome of such an element
when its integrity attributes are present. -/
theorem package_miss_error_transient (opts : LPOptions) (db : String → Option Nat)
    (url msg packageName packageVersion : String) (el : Elem)
    (hm : matchJsdelivr url = some (packageName, packageVersion)) :
    performPackageCheck url (Except.error msg) = ⟨[], [], true, true⟩ ∧
    (el.tagName = "script" → el.getAttr "src" = some url → url ≠ "" →
      strStartsWith "http" url = true →
      opts.skipUrlPatterns.any (fun p => jsIncludes url p) = false →
      el.hasAttr "integrity" = true → el.hasAttr "crossorigin" = true →
      db url = none →
      tagReadyLP opts db (Except.error msg) el = ⟨[], [], true, true⟩) := by
  have hp : performPackageCheck url (Except.error msg) = ⟨[], [], true, true⟩ := by
    unfold performPackageCheck
    rw [hm]
  refine ⟨hp, ?_⟩
  intro htag hattr hne hhttp hskip hint hcross hdb
  unfold tagReadyLP
  rw [htag]
  simp [hattr, hne, hhttp, hskip, hint, hcross, hdb, hp]

/-- C8 witness: the theorem applied at a jsDelivr bootstrap URL with a
network error, on an element carrying both integrity attributes. -/
theorem package_miss_error_transient_witness :
    performPackageCheck "https://cdn.jsdelivr.net/npm/bootstrap@4.6.0/dist/js/bootstrap.min.js"
        (Except.error "curl: (6) could not resolve host") = ⟨[], [], true, true⟩ ∧
    tagReadyLP {} (fun _ => none) (Except.error "curl: (6) could not resolve host")
        ⟨"script", [("src", some "https://cdn.jsdelivr.net/npm/bootstrap@4.6.0/dist/js/bootstrap.min.js"),
          ("integrity", some "sha384-x"), ("crossorigin", some "anonymous")]⟩ =
      ⟨[], [], true, true⟩ := by
  have h := package_miss_error_transient {} (fun _ => none)
    "https://cdn.jsdelivr.net/npm/bootstrap@4.6.0/dist/js/bootstrap.min.js"
    "curl: (6) could not resolve host" "bootstrap" "4.6.0"
    ⟨"script", [("src", some "https://cdn.jsdelivr.net/npm/bootstrap@4.6.0/dist/js/bootstrap.min.js"),
      ("integrity", some "sha384-x"), ("crossorigin", some "anonymous")]⟩
    (by decide)
  exact ⟨h.1, h.2 rfl (by decide) (by decide) (by decide) (by decide) (by decide) (by decide) rfl⟩

/-- C10 witness: the theorem applied at the empty curl output of a timed
out probe. -/
theorem no_status_cached_as_500_witness :
    performCheck {} "http://ex.com/" "" 3 =
      ⟨[ELReport.broken "http://ex.com/" 500], [⟨"http://ex.com/", 500, none, 3⟩], true⟩ := by
  have h := no_status_cached_as_500 {} "http://ex.com/" "" 3 (by decide) (by decide)
  exact h.trans (by decide)

end NiceCheckers
